import Mathlib

/-!
Verification of the audio-transcriber core pipeline: a shallow embedding of
the buffering / transcription engine (src/transcription.py), the real-time
analysis loop (src/claude_integration.py) and the audio level meter
(src/audio_capture.py), together with theorems about buffer conservation,
shutdown draining, retry semantics, export formatting and loop frame
conditions.
-/

namespace AudioTranscriber

/-- Raw PCM audio bytes, one list entry per byte (values 0..255). -/
abbrev Bytes := List ℕ

/-- Python str.strip(): remove whitespace from both ends of a string.
transcription.py applies it to the transcribed text, claude_integration.py to
the transcript before analysis. -/
def strip (t : String) : String :=
  String.mk (((t.data.dropWhile Char.isWhitespace).reverse.dropWhile Char.isWhitespace).reverse)

/-- TranscriptionSegment (transcription.py, class TranscriptionSegment):
transcribed text, wall-clock timestamp (in microseconds, the exact resolution
of Python datetime) and duration in seconds, kept as an exact rational (the
Python float is the IEEE rounding of this value). The speaker field is
always None in the source and is omitted. -/
structure TranscriptionSegment where
  text : String
  timestampUs : ℕ
  duration : ℚ
deriving DecidableEq

/-- State of a TranscriptionEngine (transcription.py, class
TranscriptionEngine). callbacks counts registered callbacks, threads counts
background threads spawned by start, apiCalls counts invocations of the
transcription service client and drains counts buffer extraction passes;
the three counters instrument effects the Python object performs but does
not store. -/
structure EngineState where
  audio_buffer : List Bytes
  segments : List TranscriptionSegment
  is_transcribing : Bool
  start_time : Option ℕ
  last_transcription_time : Option ℕ
  callbacks : ℕ
  threads : ℕ
  apiCalls : ℕ
  drains : ℕ
deriving DecidableEq

/-- Engine state right after TranscriptionEngine.__init__. -/
def initState : EngineState :=
  { audio_buffer := []
    segments := []
    is_transcribing := false
    start_time := none
    last_transcription_time := none
    callbacks := 0
    threads := 0
    apiCalls := 0
    drains := 0 }

/-- TranscriptionEngine.add_audio_chunk (transcription.py lines 107-115):
append the chunk to the buffer under the buffer lock. -/
def add_audio_chunk (c : Bytes) (s : EngineState) : EngineState :=
  { s with audio_buffer := s.audio_buffer ++ [c] }

/-- Minimum byte count of _process_buffer (transcription.py line 147):
min_size = int(sample_rate * 0.5 * 2). In IEEE double arithmetic r * 0.5 is
exact (multiplication by a power of two) and so is the further * 2, so for
every realistic rate r (far below 2^53) the Python expression evaluates to
exactly r. -/
def min_size (r : ℕ) : ℕ := r

/-- Lines 139-144 of _process_buffer: under the buffer lock, return without
output when the buffer is empty, else concatenate all buffered chunks in
arrival order, reset the buffer to empty, and hand the concatenation on. -/
def drainBuffer (s : EngineState) : EngineState × Option Bytes :=
  if s.audio_buffer = [] then (s, none)
  else ({ s with audio_buffer := [], drains := s.drains + 1 },
        some s.audio_buffer.flatten)

/-- The transcription service client (OpenAI whisper call in
_transcribe_audio), abstracted: attempt number n yields either the
transcribed text (some t) or an exception (none). -/
abbrev TranscribeSvc := ℕ → Option String

/-- Retry loop of TranscriptionEngine._transcribe_audio (transcription.py
lines 222-242): starting at the given attempt number with the given number
of attempts remaining, return the first successful response together with
the number of attempts actually made; after the last failure return none. -/
def transcribe_attempts (svc : TranscribeSvc) : ℕ → ℕ → Option String × ℕ
  | _, 0 => (none, 0)
  | attempt, rem + 1 =>
    match svc attempt with
    | some t => (some t, 1)
    | none =>
      let p := transcribe_attempts svc (attempt + 1) rem
      (p.1, p.2 + 1)

/-- TranscriptionEngine._transcribe_audio with its default retry_count = 3. -/
def transcribe_audio (svc : TranscribeSvc) : Option String × ℕ :=
  transcribe_attempts svc 0 3

/-- TranscriptionEngine._process_buffer (transcription.py lines 135-181):
extract-and-clear the buffer (nothing to do when it is empty); discard the
extracted audio when shorter than min_size; otherwise call the transcription
service with retries and, when the returned text is non-empty after
stripping, append a segment stamped with the current time `now` whose
duration is byte length / (sample_rate * 2). WAV packaging
(_create_wav_file) never fails on linear PCM input and is not modelled. -/
def process_buffer (r : ℕ) (svc : TranscribeSvc) (now : ℕ) (s : EngineState) : EngineState :=
  match drainBuffer s with
  | (s1, none) => s1
  | (s1, some audio_data) =>
    if audio_data.length < min_size r then s1
    else
      let s2 := { s1 with apiCalls := s1.apiCalls + (transcribe_audio svc).2 }
      match (transcribe_audio svc).1 with
      | none => s2
      | some t =>
        if strip t = "" then s2
        else
          { s2 with segments := s2.segments ++
              [{ text := strip t
                 timestampUs := now
                 duration := (audio_data.length : ℚ) / ((r : ℚ) * 2) }] }

/-- TranscriptionEngine.start (transcription.py lines 73-94): no-op when
already transcribing; otherwise set the flag, record session start and the
transcription timer, clear the segments, register the callback when one is
passed (cb), and spawn the background thread. -/
def start (cb : Bool) (nowWallUs : ℕ) (nowMono : ℕ) (s : EngineState) : EngineState :=
  if s.is_transcribing then s
  else
    { s with
      is_transcribing := true
      start_time := some nowWallUs
      last_transcription_time := some nowMono
      segments := []
      callbacks := s.callbacks + (if cb then 1 else 0)
      threads := s.threads + 1 }

/-- TranscriptionEngine.stop (transcription.py lines 96-105): clear the
transcribing flag (the thread join has no state effect) and, when the buffer
is non-empty, run one final _process_buffer pass. -/
def stop (r : ℕ) (svc : TranscribeSvc) (now : ℕ) (s : EngineState) : EngineState :=
  let s1 := { s with is_transcribing := false }
  if s1.audio_buffer = [] then s1 else process_buffer r svc now s1

/-- Append a list of chunks one by one with add_audio_chunk. -/
def appendAll (cs : List Bytes) (s : EngineState) : EngineState :=
  cs.foldl (fun s c => add_audio_chunk c s) s

/-- An interleaving step for the buffer conservation property: either an
add_audio_chunk call or a drain (the extraction step of _process_buffer). -/
inductive BufOp where
  | add (c : Bytes)
  | drain
deriving DecidableEq

/-- Bytes an operation appends to the buffer. -/
def opBytes : BufOp → Bytes
  | .add c => c
  | .drain => []

/-- Concatenation of all bytes appended by a sequence of operations, in
append order. -/
def appendedBytes (ops : List BufOp) : Bytes :=
  (ops.map opBytes).flatten

/-- Run one operation against the engine state, collecting each drain's
extracted byte string in drain order. -/
def bufStep : EngineState × List Bytes → BufOp → EngineState × List Bytes
  | (s, outs), .add c => (add_audio_chunk c s, outs)
  | (s, outs), .drain =>
    let p := drainBuffer s
    (p.1, outs ++ p.2.toList)

/-- Run a whole sequence of interleaved appends and drains from a fresh
engine. -/
def runBuf (ops : List BufOp) : EngineState × List Bytes :=
  ops.foldl bufStep (initState, [])

/-- All bytes held by a run state: the drained outputs in drain order
followed by what is still buffered. -/
def stateBytes (p : EngineState × List Bytes) : Bytes :=
  p.2.flatten ++ p.1.audio_buffer.flatten

/-- State of a RealTimeAnalyzer (claude_integration.py, class
RealTimeAnalyzer). svcCalls counts invocations of the analysis service
client; callbacks and threads are as in EngineState. -/
structure AnalyzerState where
  is_running : Bool
  current_transcript : String
  last_analysis : Option String
  last_analysis_time : Option ℕ
  callbacks : ℕ
  threads : ℕ
  svcCalls : ℕ
deriving DecidableEq

/-- The analysis service client (ClaudeAnalyzer.analyze_incremental),
abstracted: transcript and previous analysis in, updated analysis out, or
none when the call fails (analyze_transcript catches all exceptions and
returns None, claude_integration.py lines 91-93). -/
abbrev AnalyzeSvc := String → Option String → Option String

/-- RealTimeAnalyzer.start (claude_integration.py lines 378-396): no-op when
already running; otherwise set the flag, record the analysis timer, register
the callback when one is passed, and spawn the background thread. -/
def analyzerStart (cb : Bool) (now : ℕ) (a : AnalyzerState) : AnalyzerState :=
  if a.is_running then a
  else
    { a with
      is_running := true
      last_analysis_time := some now
      callbacks := a.callbacks + (if cb then 1 else 0)
      threads := a.threads + 1 }

/-- RealTimeAnalyzer.stop (claude_integration.py lines 398-403): clear the
running flag (the bounded thread join has no state effect). -/
def analyzerStop (a : AnalyzerState) : AnalyzerState :=
  { a with is_running := false }

/-- One due tick of RealTimeAnalyzer._analysis_loop (claude_integration.py
lines 421-438): when the current transcript is non-empty after stripping,
call the analysis service with the transcript and the previous analysis; on
success store the new analysis and the tick time; on failure (None) change
nothing further; when the transcript strips to empty, do nothing at all. -/
def analysisTick (svc : AnalyzeSvc) (now : ℕ) (a : AnalyzerState) : AnalyzerState :=
  if strip a.current_transcript = "" then a
  else
    let a1 := { a with svcCalls := a.svcCalls + 1 }
    match svc a.current_transcript a.last_analysis with
    | some analysis =>
      { a1 with last_analysis := some analysis, last_analysis_time := some now }
    | none => a1

/-- np.frombuffer(chunk, dtype=np.int16) on one little-endian byte pair:
the signed 16-bit sample value. -/
def int16OfPair (b0 b1 : ℕ) : ℤ :=
  let v : ℤ := b0 + 256 * b1
  if v < 32768 then v else v - 65536

/-- Decode a raw chunk into its int16 samples (audio_capture.py line 178). -/
def toInt16Samples : Bytes → List ℤ
  | b0 :: b1 :: rest => int16OfPair b0 b1 :: toInt16Samples rest
  | _ => []

/-- Reduce an integer into the int16 range by wrapping modulo 2^16, the
overflow behaviour of numpy int16 arithmetic. -/
def wrapInt16 (z : ℤ) : ℤ := (z + 32768) % 65536 - 32768

/-- audio_array ** 2 as numpy executes it (audio_capture.py line 181): the
squares are computed in int16 and silently wrap modulo 2^16. -/
def wrappedSquares (samples : List ℤ) : List ℤ :=
  samples.map fun z => wrapInt16 (z * z)

/-- The radicand np.mean(audio_array ** 2) that get_audio_level passes to
np.sqrt: the mean of the wrapped int16 squares, as an exact rational. -/
def meanWrappedSquare (chunk : Bytes) : ℚ :=
  ((wrappedSquares (toInt16Samples chunk)).sum : ℚ) / ((toInt16Samples chunk).length : ℚ)

/-- The mean of the true squares of the samples, i.e. the square of the
root-mean-square amplitude the claim describes. -/
def meanTrueSquare (chunk : Bytes) : ℚ :=
  ((((toInt16Samples chunk).map fun z => z * z).sum : ℤ) : ℚ) /
    ((toInt16Samples chunk).length : ℚ)

/-- Left-pad a natural number with zeros to the given minimum width, the
behaviour of a Python {:0wd} format specifier. -/
def padNum (w n : ℕ) : String :=
  String.mk (List.replicate (w - (toString n).length) '0') ++ toString n

/-- TranscriptionEngine._format_srt_time (transcription.py lines 336-343) on
a non-negative timedelta of us microseconds: HH:MM:SS,mmm with
total_seconds = int(td.total_seconds()) split into hours, minutes and
seconds, and milliseconds = int(td.microseconds / 1000). For the realistic
magnitudes involved the float total_seconds() is truncated to exactly
us / 10^6. -/
def format_srt_time (us : ℕ) : String :=
  let total_seconds := us / 1000000
  padNum 2 (total_seconds / 3600) ++ ":" ++
    padNum 2 (total_seconds % 3600 / 60) ++ ":" ++
    padNum 2 (total_seconds % 60) ++ "," ++
    padNum 3 (us % 1000000 / 1000)

/-- Python timedelta(seconds=d) stores whole microseconds, rounding the
seconds value to the nearest microsecond (the source rounds ties to even;
that differs only on exact half-microsecond durations, which no claim
exercises). -/
def usOfSeconds (d : ℚ) : ℕ := (⌊d * 1000000 + 1 / 2⌋).toNat

/-- TranscriptionEngine._export_srt (transcription.py lines 316-334), the
lines written: for each segment, its 1-based index i, the time range line
(start offset = timestamp minus session start startUs, end offset = start
plus the duration as a timedelta), the text, and an empty separator line;
the file content is these lines joined by newlines. -/
def srtEntries (startUs : ℕ) : ℕ → List TranscriptionSegment → List String
  | _, [] => []
  | i, seg :: rest =>
    let startOff := seg.timestampUs - startUs
    let endOff := startOff + usOfSeconds seg.duration
    toString i ::
      (format_srt_time startOff ++ " --> " ++ format_srt_time endOff) ::
      seg.text :: "" :: srtEntries startUs (i + 1) rest

/-- The full exported SRT file content, "\n".join(lines). -/
def export_srt (startUs : ℕ) (segs : List TranscriptionSegment) : String :=
  String.intercalate "\n" (srtEntries startUs 1 segs)

/-- Claim-side SRT entry, built from the spec wording: a sequential 1-based
index k, a line of the form start --> end with start = segment timestamp
minus session start time and end = start + segment duration, both formatted
as HH:MM:SS,mmm, then the segment text, then a blank separator line. -/
def specSrtEntry (startUs k : ℕ) (seg : TranscriptionSegment) : List String :=
  [toString k,
   format_srt_time (seg.timestampUs - startUs) ++ " --> " ++
     format_srt_time (seg.timestampUs - startUs + usOfSeconds seg.duration),
   seg.text,
   ""]

/-- Claim-side SRT output: the entries for the segments in source order,
indexed sequentially from 1. -/
def specSrtLines (startUs : ℕ) (segs : List TranscriptionSegment) : List String :=
  ((segs.enumFrom 1).map fun p => specSrtEntry startUs p.1 p.2).flatten

/-! Lemmas about the retry loop. -/

lemma transcribe_attempts_le (svc : TranscribeSvc) :
    ∀ rem attempt, (transcribe_attempts svc attempt rem).2 ≤ rem := by
  intro rem
  induction rem with
  | zero => intro attempt; simp [transcribe_attempts]
  | succ n ih =>
    intro attempt
    simp only [transcribe_attempts]
    cases h : svc attempt with
    | some t => simp
    | none => simpa using Nat.succ_le_succ (ih (attempt + 1))

lemma transcribe_audio_le (svc : TranscribeSvc) : (transcribe_audio svc).2 ≤ 3 :=
  transcribe_attempts_le svc 3 0

lemma transcribe_audio_all_none (svc : TranscribeSvc) (h : ∀ n, svc n = none) :
    transcribe_audio svc = (none, 3) := by
  simp [transcribe_audio, transcribe_attempts, h 0, h 1, h 2]

lemma transcribe_audio_third (svc : TranscribeSvc) (t : String)
    (h0 : svc 0 = none) (h1 : svc 1 = none) (h2 : svc 2 = some t) :
    transcribe_audio svc = (some t, 3) := by
  simp [transcribe_audio, transcribe_attempts, h0, h1, h2]

/-! Characterization of _process_buffer on each of its paths. -/

lemma process_buffer_of_empty (r : ℕ) (svc : TranscribeSvc) (now : ℕ) (s : EngineState)
    (hb : s.audio_buffer = []) : process_buffer r svc now s = s := by
  simp [process_buffer, drainBuffer, hb]

lemma process_buffer_of_short (r : ℕ) (svc : TranscribeSvc) (now : ℕ) (s : EngineState)
    (hb : s.audio_buffer ≠ []) (hlen : s.audio_buffer.flatten.length < min_size r) :
    process_buffer r svc now s =
      { s with audio_buffer := [], drains := s.drains + 1 } := by
  have hlen2 : (List.map List.length s.audio_buffer).sum < min_size r := by
    simpa using hlen
  simp [process_buffer, drainBuffer, hb, hlen2]

lemma process_buffer_of_fail (r : ℕ) (svc : TranscribeSvc) (now : ℕ) (s : EngineState)
    (hb : s.audio_buffer ≠ []) (hlen : min_size r ≤ s.audio_buffer.flatten.length)
    (hs : (transcribe_audio svc).1 = none) :
    process_buffer r svc now s =
      { s with
        audio_buffer := []
        drains := s.drains + 1
        apiCalls := s.apiCalls + (transcribe_audio svc).2 } := by
  have hlen2 : ¬ (List.map List.length s.audio_buffer).sum < min_size r := by
    simpa using Nat.not_lt.mpr hlen
  simp [process_buffer, drainBuffer, hb, hlen2, hs]

lemma process_buffer_of_blank (r : ℕ) (svc : TranscribeSvc) (now : ℕ) (s : EngineState)
    (t : String) (hb : s.audio_buffer ≠ []) (hlen : min_size r ≤ s.audio_buffer.flatten.length)
    (hs : (transcribe_audio svc).1 = some t) (ht : strip t = "") :
    process_buffer r svc now s =
      { s with
        audio_buffer := []
        drains := s.drains + 1
        apiCalls := s.apiCalls + (transcribe_audio svc).2 } := by
  have hlen2 : ¬ (List.map List.length s.audio_buffer).sum < min_size r := by
    simpa using Nat.not_lt.mpr hlen
  simp [process_buffer, drainBuffer, hb, hlen2, hs, ht]

lemma process_buffer_of_text (r : ℕ) (svc : TranscribeSvc) (now : ℕ) (s : EngineState)
    (t : String) (hb : s.audio_buffer ≠ []) (hlen : min_size r ≤ s.audio_buffer.flatten.length)
    (hs : (transcribe_audio svc).1 = some t) (ht : strip t ≠ "") :
    process_buffer r svc now s =
      { s with
        audio_buffer := []
        drains := s.drains + 1
        apiCalls := s.apiCalls + (transcribe_audio svc).2
        segments := s.segments ++
          [{ text := strip t
             timestampUs := now
             duration := (s.audio_buffer.flatten.length : ℚ) / ((r : ℚ) * 2) }] } := by
  have hlen2 : ¬ (List.map List.length s.audio_buffer).sum < min_size r := by
    simpa using Nat.not_lt.mpr hlen
  simp [process_buffer, drainBuffer, hb, hlen2, hs, ht]

/-! Frame facts about _process_buffer and stop. -/

lemma process_buffer_frame (r : ℕ) (svc : TranscribeSvc) (now : ℕ) (s : EngineState) :
    (process_buffer r svc now s).audio_buffer = [] ∧
    (process_buffer r svc now s).is_transcribing = s.is_transcribing := by
  by_cases hb : s.audio_buffer = []
  · rw [process_buffer_of_empty r svc now s hb]
    exact ⟨hb, rfl⟩
  · by_cases hlen : s.audio_buffer.flatten.length < min_size r
    · rw [process_buffer_of_short r svc now s hb hlen]
      exact ⟨rfl, rfl⟩
    · have hlen2 : min_size r ≤ s.audio_buffer.flatten.length := Nat.not_lt.mp hlen
      cases hs : (transcribe_audio svc).1 with
      | none =>
        rw [process_buffer_of_fail r svc now s hb hlen2 hs]
        exact ⟨rfl, rfl⟩
      | some t =>
        by_cases ht : strip t = ""
        · rw [process_buffer_of_blank r svc now s t hb hlen2 hs ht]
          exact ⟨rfl, rfl⟩
        · rw [process_buffer_of_text r svc now s t hb hlen2 hs ht]
          exact ⟨rfl, rfl⟩

lemma process_buffer_drains (r : ℕ) (svc : TranscribeSvc) (now : ℕ) (s : EngineState)
    (hb : s.audio_buffer ≠ []) :
    (process_buffer r svc now s).drains = s.drains + 1 := by
  by_cases hlen : s.audio_buffer.flatten.length < min_size r
  · rw [process_buffer_of_short r svc now s hb hlen]
  · have hlen2 : min_size r ≤ s.audio_buffer.flatten.length := Nat.not_lt.mp hlen
    cases hs : (transcribe_audio svc).1 with
    | none => rw [process_buffer_of_fail r svc now s hb hlen2 hs]
    | some t =>
      by_cases ht : strip t = ""
      · rw [process_buffer_of_blank r svc now s t hb hlen2 hs ht]
      · rw [process_buffer_of_text r svc now s t hb hlen2 hs ht]

lemma stop_audio_buffer (r : ℕ) (svc : TranscribeSvc) (now : ℕ) (s : EngineState) :
    (stop r svc now s).audio_buffer = [] := by
  by_cases hb : s.audio_buffer = []
  · simp [stop, hb]
  · simp only [stop]
    rw [if_neg hb]
    exact (process_buffer_frame r svc now _).1

lemma stop_is_transcribing (r : ℕ) (svc : TranscribeSvc) (now : ℕ) (s : EngineState) :
    (stop r svc now s).is_transcribing = false := by
  by_cases hb : s.audio_buffer = []
  · simp [stop, hb]
  · simp only [stop]
    rw [if_neg hb]
    exact (process_buffer_frame r svc now _).2

lemma stop_of_stopped (r : ℕ) (svc : TranscribeSvc) (now : ℕ) (s : EngineState)
    (hb : s.audio_buffer = []) (hf : s.is_transcribing = false) :
    stop r svc now s = s := by
  obtain ⟨b, seg, f, st, lt, cb, th, ap, dr⟩ := s
  simp only at hb hf
  subst hb
  subst hf
  simp [stop]

/-! Buffer conservation across interleaved appends and drains. -/

lemma stateBytes_bufStep (p : EngineState × List Bytes) (op : BufOp) :
    stateBytes (bufStep p op) = stateBytes p ++ opBytes op := by
  obtain ⟨s, outs⟩ := p
  cases op with
  | add c =>
    simp [stateBytes, bufStep, add_audio_chunk, opBytes, List.flatten_append]
  | drain =>
    by_cases hb : s.audio_buffer = [] <;>
      simp [stateBytes, bufStep, drainBuffer, hb, opBytes, List.flatten_append]

lemma stateBytes_foldl (ops : List BufOp) :
    ∀ p, stateBytes (ops.foldl bufStep p) = stateBytes p ++ appendedBytes ops := by
  induction ops with
  | nil => intro p; simp [appendedBytes]
  | cons op ops ih =>
    intro p
    rw [List.foldl_cons, ih, stateBytes_bufStep]
    simp [appendedBytes]

lemma bufStep_drain_buffer (p : EngineState × List Bytes) :
    (bufStep p BufOp.drain).1.audio_buffer = [] := by
  obtain ⟨s, outs⟩ := p
  by_cases hb : s.audio_buffer = [] <;> simp [bufStep, drainBuffer, hb]

/-! appendAll is one buffer extension. -/

lemma appendAll_eq (cs : List Bytes) :
    ∀ s, appendAll cs s = { s with audio_buffer := s.audio_buffer ++ cs } := by
  induction cs with
  | nil => intro s; simp [appendAll]
  | cons c cs ih =>
    intro s
    rw [show appendAll (c :: cs) s = appendAll cs (add_audio_chunk c s) from rfl, ih]
    simp [add_audio_chunk]

/-! SRT lines agree with the per-entry description, at any starting index. -/

lemma srtEntries_eq_spec (startUs : ℕ) :
    ∀ (i : ℕ) (segs : List TranscriptionSegment),
      srtEntries startUs i segs =
        ((segs.enumFrom i).map fun p => specSrtEntry startUs p.1 p.2).flatten := by
  intro i segs
  induction segs generalizing i with
  | nil => simp [srtEntries, List.enumFrom]
  | cons seg rest ih =>
    simp [srtEntries, List.enumFrom, specSrtEntry, ih]

lemma srtEntries_length (startUs : ℕ) :
    ∀ (i : ℕ) (segs : List TranscriptionSegment),
      (srtEntries startUs i segs).length = 4 * segs.length := by
  intro i segs
  induction segs generalizing i with
  | nil => simp [srtEntries]
  | cons seg rest ih =>
    simp [srtEntries, ih]
    omega

/-- C1: for every sequence of add_audio_chunk operations interleaved with
drains (the extraction step of _process_buffer), the concatenation of the
byte strings consumed and handed on across all drains, in drain order,
equals the concatenation of all appended chunks in append order — no
appended byte is lost, duplicated or reordered (stated after a final drain,
which flushes whatever is still buffered). -/
theorem c1_buffer_conservation (ops : List BufOp) :
    (runBuf (ops ++ [BufOp.drain])).2.flatten = appendedBytes ops := by
  have hbuf : (runBuf (ops ++ [BufOp.drain])).1.audio_buffer = [] := by
    rw [runBuf, List.foldl_append, List.foldl_cons, List.foldl_nil]
    exact bufStep_drain_buffer _
  have h := stateBytes_foldl (ops ++ [BufOp.drain]) (initState, [])
  rw [show (ops ++ [BufOp.drain]).foldl bufStep (initState, []) =
        runBuf (ops ++ [BufOp.drain]) from rfl] at h
  unfold stateBytes at h
  rw [hbuf] at h
  simpa [appendedBytes, opBytes, initState] using h

/-- C3: a drain whose concatenated audio is shorter than
int(sample_rate * 0.5 * 2) = sample_rate bytes makes no transcription
request (the service invocation count is unchanged) and appends no segment:
the drained audio is discarded as nothing to transcribe. -/
theorem c3_short_drain_discarded (r : ℕ) (svc : TranscribeSvc) (now : ℕ) (s : EngineState)
    (h : s.audio_buffer.flatten.length < min_size r) :
    (process_buffer r svc now s).segments = s.segments ∧
    (process_buffer r svc now s).apiCalls = s.apiCalls := by
  by_cases hb : s.audio_buffer = []
  · rw [process_buffer_of_empty r svc now s hb]
    exact ⟨rfl, rfl⟩
  · rw [process_buffer_of_short r svc now s hb h]
    exact ⟨rfl, rfl⟩

theorem c3_short_drain_discarded_witness :
    (process_buffer 16000 (fun _ => some "x") 0
        { initState with audio_buffer := [[0, 0]] }).segments = [] ∧
    (process_buffer 16000 (fun _ => some "x") 0
        { initState with audio_buffer := [[0, 0]] }).apiCalls = 0 :=
  c3_short_drain_discarded 16000 (fun _ => some "x") 0
    { initState with audio_buffer := [[0, 0]] } (by decide)

/-- C5 (refuted, code bug): get_audio_level does not compute the
root-mean-square of the chunk samples. audio_array ** 2 squares the int16
numpy array in int16 arithmetic, so the squares wrap modulo 2^16: for the
single-sample chunk with value 256 (bytes 0x00 0x01) the wrapped square is
0, the mean np.sqrt receives is 0, and the function returns 0.0, while the
true RMS the claim describes is 256, normalized 256/32768 which is not 0.
(For a sample of 200 the wrapped mean is even negative, -25536, so np.sqrt
yields NaN, outside the documented [0,1] range.) -/
theorem c5_int16_overflow_level :
    meanWrappedSquare [0, 1] = 0 ∧
    meanTrueSquare [0, 1] = 256 * 256 ∧
    (256 : ℚ) / 32768 ≠ 0 := by
  have h1 : toInt16Samples [0, 1] = [256] := by decide
  have h2 : wrappedSquares [256] = [0] := by decide
  have h3 : ([256].map fun z : ℤ => z * z) = [65536] := by decide
  refine ⟨?_, ?_, by norm_num⟩
  · rw [meanWrappedSquare, h1, h2]
    norm_num
  · rw [meanTrueSquare, h1]
    rw [h3]
    norm_num

/-- C8: a due analysis tick changes the stored previous analysis only when
the transcript is non-empty after stripping and the service returns a
result: an empty transcript means no service call and a completely
unchanged state, and a failed service call leaves both the previous
analysis and the analysis timer unchanged. -/
theorem c8_analysis_tick_frame (svc : AnalyzeSvc) (now : ℕ) (a : AnalyzerState) :
    (strip a.current_transcript = "" → analysisTick svc now a = a) ∧
    (svc a.current_transcript a.last_analysis = none →
      (analysisTick svc now a).last_analysis = a.last_analysis ∧
      (analysisTick svc now a).last_analysis_time = a.last_analysis_time) := by
  constructor
  · intro h
    simp [analysisTick, h]
  · intro h
    by_cases he : strip a.current_transcript = "" <;>
      simp [analysisTick, he, h]

theorem c8_analysis_tick_frame_witness :
    analysisTick (fun _ _ => some "a") 9 ⟨true, " ", none, none, 0, 1, 0⟩ =
      ⟨true, " ", none, none, 0, 1, 0⟩ ∧
    (analysisTick (fun _ _ => none) 9 ⟨true, "talk", some "prev", some 3, 0, 1, 0⟩).last_analysis =
        some "prev" ∧
    (analysisTick (fun _ _ => none) 9 ⟨true, "talk", some "prev", some 3, 0, 1, 0⟩).last_analysis_time =
        some 3 :=
  ⟨(c8_analysis_tick_frame (fun _ _ => some "a") 9 ⟨true, " ", none, none, 0, 1, 0⟩).1 (by decide),
   ((c8_analysis_tick_frame (fun _ _ => none) 9 ⟨true, "talk", some "prev", some 3, 0, 1, 0⟩).2 rfl).1,
   ((c8_analysis_tick_frame (fun _ _ => none) 9 ⟨true, "talk", some "prev", some 3, 0, 1, 0⟩).2 rfl).2⟩

/-- C9: a second stop immediately after a completed stop is a no-op on both
the transcription engine and the analyzer: the state (segments, buffer,
counters, flags, timers) is unchanged; totality of the model reflects that
no exception is raised. -/
theorem c9_stop_idempotent :
    (∀ (r : ℕ) (svc : TranscribeSvc) (now now2 : ℕ) (s : EngineState),
      stop r svc now2 (stop r svc now s) = stop r svc now s) ∧
    (∀ a : AnalyzerState, analyzerStop (analyzerStop a) = analyzerStop a) := by
  constructor
  · intro r svc now now2 s
    exact stop_of_stopped r svc now2 _ (stop_audio_buffer r svc now s)
      (stop_is_transcribing r svc now s)
  · intro a
    rfl

/-- C10: calling start while the loop is already running is a no-op for
both the transcription engine and the real-time analyzer: the returned
state is identical, so segments are not cleared, neither timer is reset,
the passed callback is not registered, and no second thread is spawned. -/
theorem c10_start_noop_when_running :
    (∀ (cb : Bool) (nw nm : ℕ) (s : EngineState),
      s.is_transcribing = true → start cb nw nm s = s) ∧
    (∀ (cb : Bool) (now : ℕ) (a : AnalyzerState),
      a.is_running = true → analyzerStart cb now a = a) := by
  constructor
  · intro cb nw nm s h
    simp [start, h]
  · intro cb now a h
    simp [analyzerStart, h]

theorem c10_start_noop_when_running_witness :
    start true 5 6 ⟨[], [], true, none, none, 0, 1, 0, 0⟩ =
      ⟨[], [], true, none, none, 0, 1, 0, 0⟩ ∧
    analyzerStart true 5 ⟨true, "tr", none, none, 0, 1, 0⟩ =
      ⟨true, "tr", none, none, 0, 1, 0⟩ :=
  ⟨c10_start_noop_when_running.1 true 5 6 ⟨[], [], true, none, none, 0, 1, 0, 0⟩ rfl,
   c10_start_noop_when_running.2 true 5 ⟨true, "tr", none, none, 0, 1, 0⟩ rfl⟩

/-- C2: stop on an engine with buffered audio performs exactly one final
processing pass over the remaining buffer (one extraction, regardless of
the buffer interval, which stop never consults); in particular starting a
fresh engine, appending audio of at least the minimum length with no prior
drain and stopping immediately yields exactly one drain pass, one appended
segment (the service returning non-empty text), and an empty buffer — no
audio captured before stop is silently dropped. -/
theorem c2_stop_final_pass :
    (∀ (r : ℕ) (svc : TranscribeSvc) (now : ℕ) (s : EngineState),
        s.audio_buffer ≠ [] → (stop r svc now s).drains = s.drains + 1) ∧
    (∀ (r : ℕ) (svc : TranscribeSvc) (nw nm now : ℕ) (cs : List Bytes) (t : String),
        0 < r → min_size r ≤ cs.flatten.length →
        (transcribe_audio svc).1 = some t → strip t ≠ "" →
        (stop r svc now (appendAll cs (start false nw nm initState))).segments.length = 1 ∧
        (stop r svc now (appendAll cs (start false nw nm initState))).drains = 1 ∧
        (stop r svc now (appendAll cs (start false nw nm initState))).audio_buffer = []) := by
  constructor
  · intro r svc now s hb
    simp only [stop]
    rw [if_neg hb]
    exact process_buffer_drains r svc now _ hb
  · intro r svc nw nm now cs t hr hlen hsvc ht
    have hcs : cs ≠ [] := by
      intro hnil
      subst hnil
      simp [min_size] at hlen
      omega
    set s0 : EngineState := appendAll cs (start false nw nm initState) with hdef
    have hbuf : s0.audio_buffer = cs := by
      rw [hdef, appendAll_eq]
      simp [start, initState]
    have hb : s0.audio_buffer ≠ [] := by
      rw [hbuf]
      exact hcs
    have hseg : s0.segments = [] := by
      rw [hdef, appendAll_eq]
      simp [start, initState]
    have hdr : s0.drains = 0 := by
      rw [hdef, appendAll_eq]
      simp [start, initState]
    have hstop : stop r svc now s0 = process_buffer r svc now { s0 with is_transcribing := false } := by
      simp only [stop]
      rw [if_neg hb]
    rw [hstop]
    have hb1 : ({ s0 with is_transcribing := false } : EngineState).audio_buffer ≠ [] := hb
    have hlen1 : min_size r ≤
        ({ s0 with is_transcribing := false } : EngineState).audio_buffer.flatten.length := by
      show min_size r ≤ s0.audio_buffer.flatten.length
      rw [hbuf]
      exact hlen
    rw [process_buffer_of_text r svc now _ t hb1 hlen1 hsvc ht]
    refine ⟨?_, ?_, rfl⟩
    · show (s0.segments ++ [_]).length = 1
      rw [hseg]
      rfl
    · show s0.drains + 1 = 1
      rw [hdr]

theorem c2_stop_final_pass_witness :
    (stop 16000 (fun _ => some "hello") 0
        (appendAll [List.replicate 64000 0] (start false 0 0 initState))).segments.length = 1 ∧
    (stop 16000 (fun _ => some "hello") 0
        (appendAll [List.replicate 64000 0] (start false 0 0 initState))).drains = 1 ∧
    (stop 16000 (fun _ => some "hello") 0
        (appendAll [List.replicate 64000 0] (start false 0 0 initState))).audio_buffer = [] :=
  c2_stop_final_pass.2 16000 (fun _ => some "hello") 0 0 0 [List.replicate 64000 0] "hello"
    (by norm_num)
    (by
      show (16000 : ℕ) ≤ _
      rw [List.flatten, List.flatten, List.append_nil, List.length_replicate]
      norm_num)
    rfl
    (by decide)

/-- C4: for any single drained buffer the transcription service is invoked
at most 3 times; when it fails on the first two attempts and succeeds with
non-empty text on the third, exactly one segment is appended (and exactly 3
invocations billed); when every attempt fails, no segment is appended and
the drained audio is not requeued (the buffer stays empty), the loop simply
continuing. -/
theorem c4_retry_semantics :
    (∀ (r : ℕ) (svc : TranscribeSvc) (now : ℕ) (s : EngineState),
        (process_buffer r svc now s).apiCalls ≤ s.apiCalls + 3) ∧
    (∀ (r : ℕ) (svc : TranscribeSvc) (now : ℕ) (s : EngineState) (t : String),
        svc 0 = none → svc 1 = none → svc 2 = some t → strip t ≠ "" →
        s.audio_buffer ≠ [] → min_size r ≤ s.audio_buffer.flatten.length →
        (process_buffer r svc now s).segments.length = s.segments.length + 1 ∧
        (process_buffer r svc now s).apiCalls = s.apiCalls + 3) ∧
    (∀ (r : ℕ) (svc : TranscribeSvc) (now : ℕ) (s : EngineState),
        (∀ n, svc n = none) →
        (process_buffer r svc now s).segments = s.segments ∧
        (process_buffer r svc now s).audio_buffer = []) := by
  refine ⟨?_, ?_, ?_⟩
  · intro r svc now s
    by_cases hb : s.audio_buffer = []
    · rw [process_buffer_of_empty r svc now s hb]
      omega
    · by_cases hlen : s.audio_buffer.flatten.length < min_size r
      · rw [process_buffer_of_short r svc now s hb hlen]
        show s.apiCalls ≤ s.apiCalls + 3
        omega
      · have hlen2 : min_size r ≤ s.audio_buffer.flatten.length := Nat.not_lt.mp hlen
        have hle := transcribe_audio_le svc
        cases hs : (transcribe_audio svc).1 with
        | none =>
          rw [process_buffer_of_fail r svc now s hb hlen2 hs]
          show s.apiCalls + (transcribe_audio svc).2 ≤ s.apiCalls + 3
          omega
        | some t =>
          by_cases ht : strip t = ""
          · rw [process_buffer_of_blank r svc now s t hb hlen2 hs ht]
            show s.apiCalls + (transcribe_audio svc).2 ≤ s.apiCalls + 3
            omega
          · rw [process_buffer_of_text r svc now s t hb hlen2 hs ht]
            show s.apiCalls + (transcribe_audio svc).2 ≤ s.apiCalls + 3
            omega
  · intro r svc now s t h0 h1 h2 ht hb hlen
    have htr := transcribe_audio_third svc t h0 h1 h2
    have hs1 : (transcribe_audio svc).1 = some t := by rw [htr]
    rw [process_buffer_of_text r svc now s t hb hlen hs1 ht]
    constructor
    · simp
    · show s.apiCalls + (transcribe_audio svc).2 = s.apiCalls + 3
      rw [htr]
  · intro r svc now s hall
    by_cases hb : s.audio_buffer = []
    · rw [process_buffer_of_empty r svc now s hb]
      exact ⟨rfl, hb⟩
    · by_cases hlen : s.audio_buffer.flatten.length < min_size r
      · rw [process_buffer_of_short r svc now s hb hlen]
        exact ⟨rfl, rfl⟩
      · have hlen2 : min_size r ≤ s.audio_buffer.flatten.length := Nat.not_lt.mp hlen
        have hs1 : (transcribe_audio svc).1 = none := by
          rw [transcribe_audio_all_none svc hall]
        rw [process_buffer_of_fail r svc now s hb hlen2 hs1]
        exact ⟨rfl, rfl⟩

theorem c4_retry_semantics_witness :
    (process_buffer 2 (fun n => if 2 ≤ n then some "ok" else none) 0
        { initState with audio_buffer := [[0, 0, 0, 0]] }).apiCalls ≤ 0 + 3 ∧
    (process_buffer 2 (fun n => if 2 ≤ n then some "ok" else none) 0
        { initState with audio_buffer := [[0, 0, 0, 0]] }).segments.length = 0 + 1 ∧
    (process_buffer 2 (fun n => if 2 ≤ n then some "ok" else none) 0
        { initState with audio_buffer := [[0, 0, 0, 0]] }).apiCalls = 0 + 3 ∧
    (process_buffer 2 (fun _ => none) 0
        { initState with audio_buffer := [[0, 0, 0, 0]] }).segments = [] ∧
    (process_buffer 2 (fun _ => none) 0
        { initState with audio_buffer := [[0, 0, 0, 0]] }).audio_buffer = [] :=
  ⟨c4_retry_semantics.1 2 (fun n => if 2 ≤ n then some "ok" else none) 0
      { initState with audio_buffer := [[0, 0, 0, 0]] },
   (c4_retry_semantics.2.1 2 (fun n => if 2 ≤ n then some "ok" else none) 0
      { initState with audio_buffer := [[0, 0, 0, 0]] } "ok"
      rfl rfl rfl (by decide) (by decide) (by decide)).1,
   (c4_retry_semantics.2.1 2 (fun n => if 2 ≤ n then some "ok" else none) 0
      { initState with audio_buffer := [[0, 0, 0, 0]] } "ok"
      rfl rfl rfl (by decide) (by decide) (by decide)).2,
   (c4_retry_semantics.2.2 2 (fun _ => none) 0
      { initState with audio_buffer := [[0, 0, 0, 0]] } (fun _ => rfl)).1,
   (c4_retry_semantics.2.2 2 (fun _ => none) 0
      { initState with audio_buffer := [[0, 0, 0, 0]] } (fun _ => rfl)).2⟩

/-- C6: after a successful transcription call for a drained buffer of at
least the minimum length, a segment is appended if and only if the returned
text is non-empty after stripping whitespace; when it is appended, its text
is the stripped returned text and its duration is the drained byte length
divided by sample_rate * 2 bytes per second. -/
theorem c6_segment_append_iff (r : ℕ) (svc : TranscribeSvc) (now : ℕ) (s : EngineState)
    (t : String) (hr : 0 < r) (hb : s.audio_buffer ≠ [])
    (hlen : min_size r ≤ s.audio_buffer.flatten.length)
    (hs : (transcribe_audio svc).1 = some t) :
    ((process_buffer r svc now s).segments ≠ s.segments ↔ strip t ≠ "") ∧
    (strip t ≠ "" →
      (process_buffer r svc now s).segments =
        s.segments ++
          [{ text := strip t
             timestampUs := now
             duration := (s.audio_buffer.flatten.length : ℚ) / ((r : ℚ) * 2) }]) := by
  by_cases ht : strip t = ""
  · rw [process_buffer_of_blank r svc now s t hb hlen hs ht]
    constructor
    · simp [ht]
    · intro hcon
      exact absurd ht hcon
  · rw [process_buffer_of_text r svc now s t hb hlen hs ht]
    constructor
    · constructor
      · intro _
        exact ht
      · intro _ heq
        have hl := congrArg List.length heq
        simp at hl
    · intro _
      rfl

theorem c6_segment_append_iff_witness :
    ((process_buffer 2 (fun _ => some " hi ") 5
          { initState with audio_buffer := [[1, 2, 3, 4]] }).segments ≠
        ({ initState with audio_buffer := [[1, 2, 3, 4]] } : EngineState).segments ↔
      strip " hi " ≠ "") ∧
    (strip " hi " ≠ "" →
      (process_buffer 2 (fun _ => some " hi ") 5
          { initState with audio_buffer := [[1, 2, 3, 4]] }).segments =
        ({ initState with audio_buffer := [[1, 2, 3, 4]] } : EngineState).segments ++
          [{ text := strip " hi "
             timestampUs := 5
             duration := ((({ initState with audio_buffer := [[1, 2, 3, 4]] } :
                 EngineState).audio_buffer.flatten.length : ℕ) : ℚ) / (((2 : ℕ) : ℚ) * 2) }]) :=
  c6_segment_append_iff 2 (fun _ => some " hi ") 5
    { initState with audio_buffer := [[1, 2, 3, 4]] } " hi "
    (by decide) (by decide) (by decide) rfl

/-- C7: the SRT export emits, for each segment in source order, a sequential
1-based index, a line start --> end with start = segment timestamp minus
session start time and end = start + segment duration, both formatted as
HH:MM:SS,mmm, then the segment text, each entry closed by a blank separator
line (so the entries are separated by blank lines and n segments yield
exactly n numbered four-line entries). -/
theorem c7_srt_structure (startUs : ℕ) (segs : List TranscriptionSegment)
    (h : ∀ seg ∈ segs, startUs ≤ seg.timestampUs) :
    srtEntries startUs 1 segs = specSrtLines startUs segs ∧
    (srtEntries startUs 1 segs).length = 4 * segs.length :=
  ⟨srtEntries_eq_spec startUs 1 segs, srtEntries_length startUs 1 segs⟩

theorem c7_srt_structure_witness :
    (∀ seg ∈ ([⟨"hello", 0, 6 / 5⟩, ⟨"world", 5000000, 4 / 5⟩] : List TranscriptionSegment),
        0 ≤ seg.timestampUs) ∧
    srtEntries 0 1 [⟨"hello", 0, 6 / 5⟩, ⟨"world", 5000000, 4 / 5⟩] =
        specSrtLines 0 [⟨"hello", 0, 6 / 5⟩, ⟨"world", 5000000, 4 / 5⟩] ∧
    (srtEntries 0 1 [⟨"hello", 0, 6 / 5⟩, ⟨"world", 5000000, 4 / 5⟩]).length =
        4 * ([⟨"hello", 0, 6 / 5⟩, ⟨"world", 5000000, 4 / 5⟩] : List TranscriptionSegment).length :=
  ⟨by simp,
   (c7_srt_structure 0 [⟨"hello", 0, 6 / 5⟩, ⟨"world", 5000000, 4 / 5⟩] (by simp)).1,
   (c7_srt_structure 0 [⟨"hello", 0, 6 / 5⟩, ⟨"world", 5000000, 4 / 5⟩] (by simp)).2⟩

end AudioTranscriber

